import Mathlib

/-!
Verification of the Arrow dataset tutorial
(`cpp/examples/tutorial_examples/dataset_example.cc`).

The tutorial is glue code over the Arrow dataset subsystem.  The parts the
tutorial itself contains (`CreateTable`, `CreateExampleParquetDataset`,
`PrepareEnv`, `RunMain`, `main`) are embedded directly from the source.
The dataset subsystem the tutorial calls (filesystem, hive partitioning,
dataset factory, scanner, dataset writer) is not part of this repository's
sources, so those operations are modelled from the specification's design
text (sections 4.1-4.7), as recorded in each doc comment.
-/

namespace ArrowDataset

/-- Logical column type: the example uses `int64` columns, and `utf8` for
the partition key schema of the final write. -/
inductive ArrowType
  | int64
  | utf8
deriving DecidableEq

/-- A schema field: name and logical type.  Nullability is never exercised
by the example (all arrays are built fully valid), so it is omitted. -/
structure Field where
  name : String
  type : ArrowType
deriving DecidableEq

/-- Ordered sequence of fields. -/
abbrev Schema := List Field

/-- A single cell value. -/
inductive CellValue
  | int64Val (i : Int)
  | utf8Val (s : String)
deriving DecidableEq

/-- A row: one cell per schema field. -/
abbrev Row := List CellValue

/-- An in-memory table: a schema plus its rows. -/
structure Table where
  schema : Schema
  rows : List Row
deriving DecidableEq

/-- `arrow::Table::Make(schema, columns)`: assembles a table from columnar
arrays.  Row `i` holds the `i`-th element of every column; the row count is
the length of the first column (all columns in the example have equal
length). -/
def tableMake (schema : Schema) (cols : List (List CellValue)) : Table :=
  let nrows := (cols.headD []).length
  { schema := schema
    rows := (List.range nrows).map (fun i => cols.map (fun c => c.getD i (.int64Val 0))) }

/-- `table->Slice(offset, length)`: the rows `[offset, offset+length)`. -/
def tableSlice (t : Table) (offset length : Nat) : Table :=
  { t with rows := (t.rows.drop offset).take length }

/-- `table->Slice(offset)`: all rows from `offset` on. -/
def tableSliceFrom (t : Table) (offset : Nat) : Table :=
  { t with rows := t.rows.drop offset }

/-- Extract column `j` of a table, as the list of its cells down the rows. -/
def Table.col (t : Table) (j : Nat) : List CellValue :=
  t.rows.map (fun r => r.getD j (.int64Val 0))

/-- The schema built in `CreateTable`: fields a, b, c, all int64. -/
def exampleSchema : Schema :=
  [⟨"a", .int64⟩, ⟨"b", .int64⟩, ⟨"c", .int64⟩]

/-- `CreateTable` (dataset_example.cc lines 26-45): builds three int64
arrays `a = 0..9`, `b = 9..0`, `c = 1,2 alternating`, and assembles the
table from them. -/
def CreateTable : Table :=
  let array_a : List CellValue := [0, 1, 2, 3, 4, 5, 6, 7, 8, 9].map .int64Val
  let array_b : List CellValue := [9, 8, 7, 6, 5, 4, 3, 2, 1, 0].map .int64Val
  let array_c : List CellValue := [1, 2, 1, 2, 1, 2, 1, 2, 1, 2].map .int64Val
  tableMake exampleSchema [array_a, array_b, array_c]

/-- Structured error taxonomy, from the spec's error handling design:
NotFound, IOError, FormatError, SchemaError, ResourceError. -/
inductive FSError
  | notFound
  | ioError
  | formatError
  | schemaError
  | resourceError
deriving DecidableEq

/-- Modelled from the spec: the Filesystem Abstraction state (section 4.1,
missing from src/).  Directories and files that exist, plus the set of
paths on which the medium/permissions make operations fail with IOError. -/
structure FileSystem where
  dirs : List String
  files : List (String × Table)
  permissionDenied : List String
deriving DecidableEq

/-- The empty local filesystem rooted at the working directory. -/
def emptyFS : FileSystem :=
  { dirs := [], files := [], permissionDenied := [] }

/-- Modelled from the spec: `createDir(path)` (section 4.1, missing from
src/) idempotently ensures a directory exists; it fails with IOError on
permission/medium failure. -/
def createDir (fs : FileSystem) (path : String) : Except FSError FileSystem :=
  if path ∈ fs.permissionDenied then .error .ioError
  else if path ∈ fs.dirs then .ok fs
  else .ok { fs with dirs := path :: fs.dirs }

/-- Modelled from the spec: `openOutputStream(path)` followed by writing a
table through the format plugin and closing the stream (sections 4.1 and
4.3, missing from src/).  The file's previous content, if any, is
replaced; a fresh file is appended in creation order (discovery later
lists files in this order). -/
def writeFile (fs : FileSystem) (path : String) (t : Table) : Except FSError FileSystem :=
  if path ∈ fs.permissionDenied then .error .ioError
  else .ok { fs with files := (fs.files.filter (fun f => f.1 != path)) ++ [(path, t)] }

/-- `CreateExampleParquetDataset` (dataset_example.cc lines 48-67): creates
`root_path ++ "parquet_dataset"`, writes `table->Slice(0, 5)` to
`data1.parquet` and `table->Slice(5)` to `data2.parquet`, and returns the
base path. -/
def CreateExampleParquetDataset (fs : FileSystem) (root_path : String) :
    Except FSError (FileSystem × String) := do
  let base_path := root_path ++ "parquet_dataset"
  let fs ← createDir fs base_path
  let table := CreateTable
  let fs ← writeFile fs (base_path ++ "/data1.parquet") (tableSlice table 0 5)
  let fs ← writeFile fs (base_path ++ "/data2.parquet") (tableSliceFrom table 5)
  pure (fs, base_path)

/-- `PrepareEnv` (dataset_example.cc lines 69-80): builds the example
dataset in the current working directory. -/
def PrepareEnv (fs : FileSystem) : Except FSError FileSystem := do
  let r ← CreateExampleParquetDataset fs ""
  pure r.1

/-- Partition expressions: the predicate tree the spec's design notes call
for (equality, conjunction, always-true). -/
inductive PartitionExpr
  | trueExpr
  | eqExpr (col value : String)
  | andExpr (l r : PartitionExpr)
deriving DecidableEq

/-- Split a character list at every occurrence of the separator
(the semantics of `String.splitOn` for a one-character separator, written
structurally). -/
def splitChars (sep : Char) : List Char → List (List Char)
  | [] => [[]]
  | c :: cs =>
    if c == sep then [] :: splitChars sep cs
    else
      match splitChars sep cs with
      | [] => [[c]]
      | s :: ss => (c :: s) :: ss

/-- Is the first character list a leading part of the second? -/
def leadingChars : List Char → List Char → Bool
  | [], _ => true
  | _ :: _, [] => false
  | a :: as, b :: bs => a == b && leadingChars as bs

/-- Does `path` lie under directory `base_dir` (i.e. start with
`base_dir ++ "/"`)? -/
def pathHasBase (base_dir path : String) : Bool :=
  leadingChars (base_dir ++ "/").data path.data

/-- The `/`-separated segments of a path. -/
def pathSegments (path : String) : List String :=
  (splitChars '/' path.data).map (fun cs => String.mk cs)

/-- Rejoin path segments with `/` (the inverse of `pathSegments` on
non-degenerate paths). -/
def joinSegments : List String → String
  | [] => ""
  | s :: ss => ss.foldl (fun acc t => acc ++ "/" ++ t) s

/-- Does a string parse as a (signed) decimal integer? -/
def isIntLiteral (s : String) : Bool :=
  match s.data with
  | [] => false
  | '-' :: cs => !cs.isEmpty && cs.all Char.isDigit
  | cs => cs.all Char.isDigit

/-- Modelled from the spec: hive-style segment recognition (section 4.2,
missing from src/).  A path segment of the form `key=value` (with both
sides non-empty) yields that key/value pair; any other segment is
ignored. -/
def parseSegment (seg : String) : Option (String × String) :=
  match splitChars '=' seg.data with
  | [k, v] => if k.isEmpty || v.isEmpty then none else some (String.mk k, String.mk v)
  | _ => none

/-- The `key=value` segments recognized along a path. -/
def recognizedKVs (path : String) : List (String × String) :=
  (pathSegments path).filterMap parseSegment

/-- Modelled from the spec: hive partitioning `parse` (section 4.2,
missing from src/): a conjunction of `column == literal` terms for each
recognized segment; a path with no recognized segments yields the trivial
always-true expression. -/
def hiveParse (path : String) : PartitionExpr :=
  (recognizedKVs path).foldr (fun kv acc => .andExpr (.eqExpr kv.1 kv.2) acc) .trueExpr

/-- Modelled from the spec: partition key inference (section 4.2, missing
from src/): key names come from recognized `key=value` segments, in first
appearance order; the value type per key is int64 if every observed value
parses as an integer, else utf8. -/
def inferPartitionFields (paths : List String) : Schema :=
  let kvs := (paths.map recognizedKVs).foldr (· ++ ·) []
  let keys := kvs.foldl (fun acc kv => if kv.1 ∈ acc then acc else acc ++ [kv.1]) []
  keys.map (fun k =>
    let vals := kvs.filterMap (fun kv => if kv.1 = k then some kv.2 else none)
    { name := k
      type := if vals.all (fun v => isIntLiteral v) then ArrowType.int64 else ArrowType.utf8 })

/-- Modelled from the spec: `listFiles(selector)` (section 4.1, missing
from src/): the files whose path lies under the selector's recursive base
directory, in discovery order. -/
def listFiles (fs : FileSystem) (base_dir : String) : List String :=
  (fs.files.map Prod.fst).filter (fun p => pathHasBase base_dir p)

/-- Modelled from the spec: `inspectFragment(path)` (section 4.3, missing
from src/): reads only the file's footer and returns its physical schema;
fails with NotFound when the file does not exist. -/
def inspectFile (fs : FileSystem) (path : String) : Except FSError Schema :=
  match fs.files.lookup path with
  | some t => .ok t.schema
  | none => .error .notFound

/-- One discovered fragment: a physical file annotated with its partition
expression. -/
structure Fragment where
  path : String
  physicalSchema : Schema
  partitionExpr : PartitionExpr
deriving DecidableEq

/-- The discovered dataset: unified schema plus the fragments in discovery
order. -/
structure Dataset where
  schema : Schema
  fragments : List Fragment
deriving DecidableEq

/-- `List.mapM` specialised to `Except`, written out so the fail-fast
behavior is immediate from the equations. -/
def mapExcept (f : α → Except FSError β) : List α → Except FSError (List β)
  | [] => .ok []
  | a :: as => do
    let b ← f a
    let bs ← mapExcept f as
    pure (b :: bs)

/-- `List.foldlM` specialised to `Except`. -/
def foldExcept (f : β → α → Except FSError β) : β → List α → Except FSError β
  | b, [] => .ok b
  | b, a :: as => do
    let b' ← f b a
    foldExcept f b' as

/-- Modelled from the spec: adding one fragment field into the unified
schema (section 4.4, missing from src/): a new column name is appended; a
known name must carry the same type, otherwise unification fails with
SchemaError (int64 vs utf8 is irreconcilable). -/
def addField (acc : Schema) (f : Field) : Except FSError Schema :=
  match acc.find? (fun g => g.name == f.name) with
  | some g => if g.type = f.type then .ok acc else .error .schemaError
  | none => .ok (acc ++ [f])

/-- Column-name union of two schemas, promoting nothing across the int64
vs utf8 divide. -/
def unifySchemas (acc new : Schema) : Except FSError Schema :=
  foldExcept addField acc new

/-- Modelled from the spec: the per-candidate step of the factory
(section 4.4, missing from src/): inspect the file's physical schema and
parse its path into a partition expression. -/
def fragmentOf (inspect : String → Except FSError Schema) (p : String) :
    Except FSError Fragment := do
  let s ← inspect p
  pure { path := p, physicalSchema := s, partitionExpr := hiveParse p }

/-- Modelled from the spec: `FileSystemDatasetFactory::Make` followed by
`Finish` (section 4.4, missing from src/): inspect every candidate file,
parse its path into a partition expression, unify all physical schemas,
inject the inferred partition columns, and produce the Dataset.  Any
single fragment's failure aborts the whole call. -/
def factoryFinish (inspect : String → Except FSError Schema) (paths : List String) :
    Except FSError Dataset := do
  let frags ← mapExcept (fragmentOf inspect) paths
  let phys ← foldExcept unifySchemas [] (frags.map (fun f => f.physicalSchema))
  let schema ← unifySchemas phys (inferPartitionFields paths)
  pure { schema := schema, fragments := frags }

/-- Modelled from the spec: `scanFragment` (section 4.3, missing from
src/): materializes the rows of one physical file; NotFound when the file
is gone. -/
def scanFragment (fs : FileSystem) (path : String) : Except FSError Table :=
  match fs.files.lookup path with
  | some t => .ok t
  | none => .error .notFound

/-- One concurrent scan task: the worker for fragment index `i` scans its
fragment and deposits the result in slot `i`. -/
def slotScan (fs : FileSystem) (fragPaths : List String) (i : Nat) :
    Except FSError (Nat × Table) :=
  match fragPaths.get? i with
  | some p => (scanFragment fs p).map (fun t => (i, t))
  | none => .error .notFound

/-- Modelled from the spec: the scatter phase of `Scanner::ToTable`
(sections 4.6 and 5, missing from src/): workers complete in an arbitrary
`completionOrder` and each fills its own indexed slot. -/
def fillSlots (fs : FileSystem) (fragPaths : List String) (completionOrder : List Nat) :
    Except FSError (List (Nat × Table)) :=
  mapExcept (slotScan fs fragPaths) completionOrder

/-- Modelled from the spec: the gather phase of `Scanner::ToTable`
(sections 4.6 and 5, missing from src/): slots are drained strictly in
fragment-index order 0..n-1 and their rows concatenated. -/
def drainSlots (slots : List (Nat × Table)) (n : Nat) : List Row :=
  ((List.range n).map (fun i => ((slots.lookup i).map Table.rows).getD [])).foldr (· ++ ·) []

/-- Modelled from the spec: `Scanner::ToTable` (section 4.6, missing from
src/): scan every fragment (completion order arbitrary), then concatenate
the per-fragment rows in fragment discovery order under the dataset's
unified schema. -/
def scannerToTable (fs : FileSystem) (ds : Dataset) (completionOrder : List Nat) :
    Except FSError Table := do
  let slots ← fillSlots fs (ds.fragments.map (fun f => f.path)) completionOrder
  pure { schema := ds.schema, rows := drainSlots slots ds.fragments.length }

/-- The conflict policy enumeration of `FileSystemDatasetWriteOptions`:
`error`, `overwriteOrIgnore`, `deleteMatching`. -/
inductive ExistingDataBehavior
  | error
  | overwriteOrIgnore
  | deleteMatching
deriving DecidableEq

/-- The string a cell contributes to a hive partition path segment (the
int64 key column is rendered in decimal, as the utf8 partition schema of
the write demands). -/
def cellToPartitionString : CellValue → String
  | .int64Val i => toString i
  | .utf8Val s => s

/-- The partition key value of one row, for key column `keyCol`. -/
def keyValueOfRow (schema : Schema) (keyCol : String) (r : Row) : String :=
  match schema.findIdx? (fun f => f.name = keyCol) with
  | some j => cellToPartitionString (r.getD j (.int64Val 0))
  | none => ""

/-- The distinct partition key values of a table, in first-seen row
order. -/
def distinctKeysOf (t : Table) (keyCol : String) : List String :=
  (t.rows.map (keyValueOfRow t.schema keyCol)).foldl
    (fun acc v => if v ∈ acc then acc else acc ++ [v]) []

/-- The character U+007B opening a template placeholder. -/
def leftBrace : Char := Char.ofNat 123

/-- The character U+007D closing a template placeholder. -/
def rightBrace : Char := Char.ofNat 125

/-- Replace every occurrence of the three-character placeholder
(left brace, `i`, right brace) by the counter's digits. -/
def instantiateChars (ctr : List Char) : List Char → List Char
  | [] => []
  | [c] => [c]
  | [c, d] => [c, d]
  | c :: d :: e :: rest =>
    if c = leftBrace && d = 'i' && e = rightBrace then ctr ++ instantiateChars ctr rest
    else c :: instantiateChars ctr (d :: e :: rest)

/-- `basenameTemplate` instantiation: every occurrence of the literal
`{i}` is replaced by the counter value. -/
def instantiateTemplate (tmpl : String) (i : Nat) : String :=
  String.mk (instantiateChars (toString i).data tmpl.data)

/-- The hive-style partition directory for one key value:
`{baseDir}/{key}={value}`. -/
def partitionDir (baseDir keyCol v : String) : String :=
  baseDir ++ "/" ++ keyCol ++ "=" ++ v

/-- Modelled from the spec: the routing phase of the Dataset Writer
(section 4.7, missing from src/): rows are grouped by distinct partition
key value; each first-seen group opens one new file under
`{baseDir}/{key}={value}/{basenameTemplate}`, with `{i}` replaced by the
per-partition-directory sequence counter, which starts at 0 for the first
file of each directory (one table means one file per directory here). -/
def writeDatasetFiles (baseDir tmpl keyCol : String) (t : Table) : List (String × Table) :=
  (distinctKeysOf t keyCol).map (fun v =>
    (partitionDir baseDir keyCol v ++ "/" ++ instantiateTemplate tmpl 0,
     { schema := t.schema
       rows := t.rows.filter (fun r => keyValueOfRow t.schema keyCol r == v) }))

/-- Modelled from the spec: `FileSystemDataset::Write` conflict handling
(sections 4.7 and 7, missing from src/).  `error` fails with an error when
the target directory already holds data, touching nothing; `overwriteOrIgnore`
replaces colliding names with the new files' content and leaves other
pre-existing files alone; `deleteMatching` first clears every partition
directory being written into. -/
def datasetWrite (fs : FileSystem) (baseDir : String) (behavior : ExistingDataBehavior)
    (newFiles : List (String × Table)) : Except FSError FileSystem :=
  match behavior with
  | .error =>
    if fs.files.any (fun f => pathHasBase baseDir f.1) then .error .ioError
    else .ok { fs with files := fs.files ++ newFiles }
  | .overwriteOrIgnore =>
    .ok { fs with
          files := newFiles ++ fs.files.filter (fun f => newFiles.all (fun n => n.1 != f.1)) }
  | .deleteMatching =>
    let dirOf := fun (p : String) => joinSegments (pathSegments p).dropLast
    let newDirs := newFiles.map (fun n => dirOf n.1)
    .ok { fs with
          files := newFiles ++ fs.files.filter (fun f => !(newDirs.contains (dirOf f.1))) }

/-- `RunMain` (dataset_example.cc lines 82-165): prepare the environment,
discover `parquet_dataset` through the factory, scan it into a table, and
write that table back out hive-partitioned on column `a` under
`write_dataset` with basename template `part{i}.parquet` and
`kOverwriteOrIgnore`.  The scheduler's fragment completion order is an
explicit parameter of the model. -/
def RunMain (fs : FileSystem) (completionOrder : List Nat) : Except FSError FileSystem := do
  let fs ← PrepareEnv fs
  let paths := listFiles fs "parquet_dataset"
  let read_dataset ← factoryFinish (inspectFile fs) paths
  let table ← scannerToTable fs read_dataset completionOrder
  let newFiles := writeDatasetFiles "write_dataset" "part{i}.parquet" "a" table
  datasetWrite fs "write_dataset" ExistingDataBehavior.overwriteOrIgnore newFiles

/-- `main` (dataset_example.cc lines 167-174): exit code 1 when `RunMain`
returns an error status, 0 on success. -/
def mainExit (fs : FileSystem) (completionOrder : List Nat) : Nat :=
  match RunMain fs completionOrder with
  | .ok _ => 0
  | .error _ => 1

/-! ### Concrete run of the program -/

/-- The filesystem after `PrepareEnv` starting from an empty working
directory. -/
def fs0 : FileSystem := ((PrepareEnv emptyFS).toOption).getD emptyFS

/-- The candidate paths the selector discovers under `parquet_dataset`. -/
def discoveredPaths : List String := listFiles fs0 "parquet_dataset"

/-- The dataset the factory produces for the discovered paths. -/
def ds0 : Dataset :=
  ((factoryFinish (inspectFile fs0) discoveredPaths).toOption).getD ⟨[], []⟩

/-- Content of `parquet_dataset/data1.parquet`: the first five rows. -/
def data1Table : Table := tableSlice CreateTable 0 5

/-- Content of `parquet_dataset/data2.parquet`: the remaining rows. -/
def data2Table : Table := tableSliceFrom CreateTable 5

/-- The table `Scanner::ToTable` must materialize: data1's rows before
data2's rows, under the unified (unchanged) schema. -/
def expectedScanTable : Table :=
  { schema := exampleSchema, rows := data1Table.rows ++ data2Table.rows }

/-- The read side of the program as one pipeline: prepare, discover,
scan. -/
def roundTrip (completionOrder : List Nat) : Except FSError Table := do
  let fs ← PrepareEnv emptyFS
  let ds ← factoryFinish (inspectFile fs) (listFiles fs "parquet_dataset")
  scannerToTable fs ds completionOrder

/-- The per-fragment scan results, indexed by fragment position. -/
def fragTable (i : Nat) : Table := if i = 0 then data1Table else data2Table

/-- An inspect function that fails on the second example file only, as a
corrupt footer would. -/
def failingInspect : String → Except FSError Schema := fun p =>
  if p = "parquet_dataset/data2.parquet" then .error .formatError else .ok exampleSchema

/-- A filesystem whose medium rejects creating `parquet_dataset`. -/
def deniedFS : FileSystem :=
  { dirs := [], files := [], permissionDenied := ["parquet_dataset"] }

/-- A filesystem holding a pre-existing file under `parquet_dataset`
whose column `a` is utf8: `PrepareEnv` succeeds on it, but the factory's
schema unification then fails with SchemaError against the int64 `a` of
the example files. -/
def evilFS : FileSystem :=
  { dirs := []
    files := [("parquet_dataset/evil.parquet",
      { schema := [⟨"a", .utf8⟩], rows := [[.utf8Val "x"]] })]
    permissionDenied := [] }

/-- The filesystem `PrepareEnv` produces from `evilFS`. -/
def evilPreparedFS : FileSystem := ((PrepareEnv evilFS).toOption).getD emptyFS

/-- A filesystem whose `write_dataset` directory already holds a file, for
exercising the conflict policies. -/
def preExistingFS : FileSystem :=
  { dirs := ["write_dataset"]
    files := [("write_dataset/a=0/part0.parquet", data1Table)]
    permissionDenied := [] }

/-- The replacement content a second write routes to the colliding name. -/
def replacementFiles : List (String × Table) :=
  [("write_dataset/a=0/part0.parquet", data2Table)]

/-! ### Helper lemmas -/

theorem mapExcept_ok_of_forall (f : α → Except FSError β) (g : α → β) :
    ∀ (l : List α), (∀ a ∈ l, f a = .ok (g a)) → mapExcept f l = .ok (l.map g)
  | [], _ => rfl
  | a :: as, h => by
    have ha := h a (List.mem_cons_self a as)
    have ih := mapExcept_ok_of_forall f g as (fun b hb => h b (List.mem_cons_of_mem a hb))
    simp [mapExcept, ha, ih]
    rfl

theorem mapExcept_error_of_mem (f : α → Except FSError β) :
    ∀ (l : List α) (a : α), a ∈ l → (∃ e, f a = .error e) →
      ∃ e', mapExcept f l = .error e'
  | [], a, ha, _ => absurd ha (List.not_mem_nil a)
  | b :: bs, a, ha, ⟨e, he⟩ => by
    match hfb : f b with
    | .error eb => exact ⟨eb, by simp only [mapExcept, hfb]; rfl⟩
    | .ok vb =>
      have hab : a ∈ bs := by
        rcases List.mem_cons.mp ha with rfl | h
        · rw [hfb] at he; exact absurd he (by simp)
        · exact h
      obtain ⟨e', he'⟩ := mapExcept_error_of_mem f bs a hab ⟨e, he⟩
      exact ⟨e', by simp only [mapExcept, hfb, he']; rfl⟩

theorem fillSlots_ok (order : List Nat) (h : order.Perm [0, 1]) :
    fillSlots fs0 (ds0.fragments.map (fun f => f.path)) order
      = .ok (order.map (fun i => (i, fragTable i))) := by
  apply mapExcept_ok_of_forall
  intro i hi
  have : i = 0 ∨ i = 1 := by simpa using h.mem_iff.mp hi
  rcases this with rfl | rfl <;> rfl

theorem scannerToTable_perm (order : List Nat) (h : order.Perm [0, 1]) :
    scannerToTable fs0 ds0 order = .ok expectedScanTable := by
  have h0 : (0 : Nat) ∈ order := h.mem_iff.mpr (by simp)
  have h1 : (1 : Nat) ∈ order := h.mem_iff.mpr (by simp)
  have l0 := List.lookup_graph fragTable h0
  have l1 := List.lookup_graph fragTable h1
  unfold scannerToTable
  rw [fillSlots_ok order h]
  show Except.ok
      { schema := ds0.schema
        rows := drainSlots (order.map (fun i => (i, fragTable i))) ds0.fragments.length }
    = Except.ok expectedScanTable
  have hrows : drainSlots (order.map (fun i => (i, fragTable i))) ds0.fragments.length
      = expectedScanTable.rows := by
    rw [show ds0.fragments.length = 2 from rfl]
    simp only [drainSlots]
    rw [show List.range 2 = [0, 1] from rfl]
    simp only [List.map_cons, List.map_nil, l0, l1]
    rfl
  rw [hrows]
  rfl

/-! ### Claims -/

/-- C9: whenever `CreateTable` returns successfully it returns the table
with schema exactly (a: int64, b: int64, c: int64) and exactly 10 rows,
column a ascending 0..9, column b descending 9..0, and column c
alternating 1,2; being a closed pure definition, every run yields this
same table. -/
theorem createTable_content :
    CreateTable.schema = [⟨"a", .int64⟩, ⟨"b", .int64⟩, ⟨"c", .int64⟩] ∧
    CreateTable.rows.length = 10 ∧
    CreateTable.col 0 = [0, 1, 2, 3, 4, 5, 6, 7, 8, 9].map CellValue.int64Val ∧
    CreateTable.col 1 = [9, 8, 7, 6, 5, 4, 3, 2, 1, 0].map CellValue.int64Val ∧
    CreateTable.col 2 = [1, 2, 1, 2, 1, 2, 1, 2, 1, 2].map CellValue.int64Val :=
  ⟨rfl, rfl, rfl, rfl, rfl⟩

/-- C10: the two files written by `CreateExampleParquetDataset` exactly
partition the source table: for any table and split point the rows of
`Slice(0, n)` followed by the rows of `Slice(n)` are the original rows;
concretely the files hold `data1Table` and `data2Table`, whose
concatenation in that order is the 10-row table, no row duplicated or
lost. -/
theorem slices_partition_table (t : Table) (n : Nat) :
    ((tableSlice t 0 n).rows ++ (tableSliceFrom t n).rows = t.rows) ∧
    (fs0.files.lookup "parquet_dataset/data1.parquet" = some data1Table) ∧
    (fs0.files.lookup "parquet_dataset/data2.parquet" = some data2Table) ∧
    (data1Table.rows ++ data2Table.rows = CreateTable.rows) := by
  refine ⟨?_, rfl, rfl, rfl⟩
  simp [tableSlice, tableSliceFrom, List.take_append_drop]

/-- C3: a discovered file path with no recognized hive `key=value`
segments parses to the trivial, always-true partition expression; in
particular both fragments of the discovered dataset carry the trivial
expression. -/
theorem hiveParse_trivial (path : String) (h : recognizedKVs path = []) :
    hiveParse path = PartitionExpr.trueExpr ∧
    ds0.fragments.map (fun f => f.partitionExpr) =
      [PartitionExpr.trueExpr, PartitionExpr.trueExpr] := by
  constructor
  · unfold hiveParse
    rw [h]
    rfl
  · rfl

/-- Witness for C3 at the program's two data files. -/
theorem hiveParse_trivial_witness :
    recognizedKVs "parquet_dataset/data1.parquet" = [] ∧
    recognizedKVs "parquet_dataset/data2.parquet" = [] ∧
    hiveParse "parquet_dataset/data1.parquet" = PartitionExpr.trueExpr ∧
    hiveParse "parquet_dataset/data2.parquet" = PartitionExpr.trueExpr :=
  ⟨rfl, rfl, (hiveParse_trivial "parquet_dataset/data1.parquet" rfl).1,
    (hiveParse_trivial "parquet_dataset/data2.parquet" rfl).1⟩

/-- C8: `createDir` is idempotent: on a path without a permission/medium
failure it succeeds, a second call on the result succeeds with the same
state, and the directory exists; and `createDir` only ever fails with
IOError. -/
theorem createDir_idempotent (fs : FileSystem) (path : String)
    (h : path ∉ fs.permissionDenied) :
    (∃ fs', createDir fs path = .ok fs' ∧ createDir fs' path = .ok fs' ∧
      path ∈ fs'.dirs) ∧
    (∀ fs₂ e, createDir fs₂ path = .error e → e = .ioError) := by
  constructor
  · by_cases hd : path ∈ fs.dirs
    · exact ⟨fs, by simp [createDir, h, hd], by simp [createDir, h, hd], hd⟩
    · refine ⟨{ fs with dirs := path :: fs.dirs }, ?_, ?_,
        List.mem_cons_self path fs.dirs⟩
      · simp [createDir, h, hd]
      · simp [createDir, h]
  · intro fs₂ e he
    by_cases h2 : path ∈ fs₂.permissionDenied
    · simp only [createDir, if_pos h2, Except.error.injEq] at he
      exact he.symm
    · by_cases h3 : path ∈ fs₂.dirs <;> simp [createDir, h2, h3] at he

/-- Witness for C8: creating `parquet_dataset` twice from the empty
working directory. -/
theorem createDir_idempotent_witness :
    ("parquet_dataset" ∉ emptyFS.permissionDenied) ∧
    ((∃ fs', createDir emptyFS "parquet_dataset" = .ok fs' ∧
        createDir fs' "parquet_dataset" = .ok fs' ∧
        "parquet_dataset" ∈ fs'.dirs) ∧
      (∀ fs₂ e, createDir fs₂ "parquet_dataset" = .error e → e = .ioError)) :=
  ⟨by simp [emptyFS], createDir_idempotent emptyFS "parquet_dataset" (by simp [emptyFS])⟩

/-- C6: factory fail-fast: if inspecting any single candidate fragment
fails, the whole factory call fails with an error and no Dataset object,
not even a partial one, is returned. -/
theorem factory_fail_fast (inspect : String → Except FSError Schema)
    (paths : List String) (p : String) (e : FSError)
    (hp : p ∈ paths) (he : inspect p = .error e) :
    ∃ e', factoryFinish inspect paths = .error e' := by
  have hf : fragmentOf inspect p = .error e := by
    unfold fragmentOf
    rw [he]
    rfl
  obtain ⟨e', hmap⟩ := mapExcept_error_of_mem (fragmentOf inspect) paths p hp ⟨e, hf⟩
  exact ⟨e', by unfold factoryFinish; rw [hmap]; rfl⟩

/-- Witness for C6: an inspect function whose footer read fails on
`data2.parquet` aborts the factory over both discovered paths. -/
theorem factory_fail_fast_witness :
    ("parquet_dataset/data2.parquet" ∈ discoveredPaths) ∧
    (failingInspect "parquet_dataset/data2.parquet" = .error .formatError) ∧
    ∃ e', factoryFinish failingInspect discoveredPaths = .error e' :=
  ⟨by decide, rfl,
    factory_fail_fast failingInspect discoveredPaths
      "parquet_dataset/data2.parquet" .formatError (by decide) rfl⟩

/-- C2: the table materialized by `Scanner::ToTable` concatenates the
per-fragment rows in fragment discovery order: with `data1.parquet` and
`data2.parquet` discovered in that order, the result holds data1's rows
before data2's rows for every completion order of the fragment scans. -/
theorem scanner_ordering (order : List Nat) (h : order.Perm [0, 1]) :
    ds0.fragments.map (fun f => f.path) =
      ["parquet_dataset/data1.parquet", "parquet_dataset/data2.parquet"] ∧
    scannerToTable fs0 ds0 order =
      .ok { schema := exampleSchema, rows := data1Table.rows ++ data2Table.rows } :=
  ⟨rfl, scannerToTable_perm order h⟩

/-- Witness for C2 with the second fragment's I/O completing first. -/
theorem scanner_ordering_witness :
    (([1, 0] : List Nat).Perm [0, 1]) ∧
    (ds0.fragments.map (fun f => f.path) =
      ["parquet_dataset/data1.parquet", "parquet_dataset/data2.parquet"] ∧
    scannerToTable fs0 ds0 [1, 0] =
      .ok { schema := exampleSchema, rows := data1Table.rows ++ data2Table.rows }) :=
  ⟨List.Perm.swap 0 1 [], scanner_ordering [1, 0] (List.Perm.swap 0 1 [])⟩

/-- C1: round-trip: writing the 10-row table as the two-file dataset and
re-discovering and scanning it yields a table with exactly the same form
rows (set-equal; here even list-equal) and the identical schema (the
partition-column promotion caveat is vacuous as no `key=value` segments
are discovered), for every fragment completion order. -/
theorem round_trip (order : List Nat) (h : order.Perm [0, 1]) :
    ∃ t, roundTrip order = .ok t ∧ t.rows.Perm CreateTable.rows ∧
      t.schema = CreateTable.schema := by
  refine ⟨expectedScanTable, ?_, List.Perm.of_eq rfl, rfl⟩
  unfold roundTrip
  rw [show PrepareEnv emptyFS = .ok fs0 from rfl]
  show (do
      let ds ← factoryFinish (inspectFile fs0) (listFiles fs0 "parquet_dataset")
      scannerToTable fs0 ds order) = Except.ok expectedScanTable
  rw [show factoryFinish (inspectFile fs0) (listFiles fs0 "parquet_dataset")
      = .ok ds0 from rfl]
  exact scannerToTable_perm order h

/-- Witness for C1 at the discovery completion order. -/
theorem round_trip_witness :
    (([0, 1] : List Nat).Perm [0, 1]) ∧
    ∃ t, roundTrip [0, 1] = .ok t ∧ t.rows.Perm CreateTable.rows ∧
      t.schema = CreateTable.schema :=
  ⟨List.Perm.refl _, round_trip [0, 1] (List.Perm.refl _)⟩

theorem lookup_of_mem_nodup {l : List (String × Table)} {p : String} {c : Table}
    (hm : (p, c) ∈ l) (hnd : (l.map Prod.fst).Nodup) : l.lookup p = some c := by
  induction l with
  | nil => simp at hm
  | cons q l ih =>
    rcases List.mem_cons.mp hm with heq | hmem
    · rw [← heq]
      simp [List.lookup]
    · have hq : p ≠ q.1 := by
        intro hqp
        have hmemmap : p ∈ l.map Prod.fst := by
          have := List.mem_map_of_mem Prod.fst hmem
          simpa using this
        have hnotin := (List.nodup_cons.mp hnd).1
        rw [← hqp] at hnotin
        exact hnotin hmemmap
      have hnd' := (List.nodup_cons.mp hnd).2
      calc (q :: l).lookup p = l.lookup p := by
            simp [List.lookup, beq_false_of_ne hq]
        _ = some c := ih hmem hnd'

theorem lookup_append_left {l l' : List (String × Table)} {p : String} {c : Table}
    (h : l.lookup p = some c) : (l ++ l').lookup p = some c := by
  induction l with
  | nil => simp [List.lookup] at h
  | cons q l ih =>
    rw [List.cons_append]
    cases hpq : (p == q.1) with
    | true =>
      simp only [List.lookup, hpq] at h ⊢
      exact h
    | false =>
      simp only [List.lookup, hpq] at h ⊢
      exact ih h

/-- C5: persisted layout: for every distinct value `v` of partition key
column `a` in the written table, the dataset write emits a file at
`write_dataset/a=v/part0.parquet` — the basename template's `{i}` being
the per-partition-directory counter, starting at 0 for the first file of
each directory; concretely the write emits exactly the ten paths
`write_dataset/a=0/part0.parquet` .. `write_dataset/a=9/part0.parquet`. -/
theorem hive_write_layout (v : String)
    (hv : v ∈ distinctKeysOf expectedScanTable "a") :
    (partitionDir "write_dataset" "a" v ++ "/" ++ instantiateTemplate "part{i}.parquet" 0)
      ∈ (writeDatasetFiles "write_dataset" "part{i}.parquet" "a" expectedScanTable).map
          Prod.fst ∧
    instantiateTemplate "part{i}.parquet" 0 = "part0.parquet" ∧
    (writeDatasetFiles "write_dataset" "part{i}.parquet" "a" expectedScanTable).map Prod.fst
      = (List.range 10).map (fun n => "write_dataset/a=" ++ toString n ++ "/part0.parquet") := by
  refine ⟨?_, rfl, by decide⟩
  unfold writeDatasetFiles
  rw [List.map_map]
  exact List.mem_map_of_mem _ hv

/-- Witness for C5 at the partition value `0`. -/
theorem hive_write_layout_witness :
    (("0" : String) ∈ distinctKeysOf expectedScanTable "a") ∧
    ((partitionDir "write_dataset" "a" "0" ++ "/" ++ instantiateTemplate "part{i}.parquet" 0)
      ∈ (writeDatasetFiles "write_dataset" "part{i}.parquet" "a" expectedScanTable).map
          Prod.fst ∧
    instantiateTemplate "part{i}.parquet" 0 = "part0.parquet" ∧
    (writeDatasetFiles "write_dataset" "part{i}.parquet" "a" expectedScanTable).map Prod.fst
      = (List.range 10).map (fun n => "write_dataset/a=" ++ toString n ++ "/part0.parquet")) :=
  ⟨by decide, hive_write_layout "0" (by decide)⟩

/-- C4: conflict policy: a dataset write with `overwriteOrIgnore` to a
non-empty target directory succeeds, colliding names carry exactly the
new files' content and non-colliding pre-existing files survive, so the
program can run more than once; a write with behavior `error` to the same
non-empty target fails, modifying nothing (no filesystem is returned). -/
theorem conflict_policy (fs : FileSystem) (baseDir : String)
    (newFiles : List (String × Table))
    (hne : fs.files.any (fun f => pathHasBase baseDir f.1) = true)
    (hnodup : (newFiles.map Prod.fst).Nodup) :
    (∃ fs', datasetWrite fs baseDir .overwriteOrIgnore newFiles = .ok fs' ∧
        (∀ p c, (p, c) ∈ newFiles → fs'.files.lookup p = some c) ∧
        (∀ f, f ∈ fs.files → (∀ q, q ∈ newFiles → q.1 ≠ f.1) → f ∈ fs'.files)) ∧
    datasetWrite fs baseDir .error newFiles = .error .ioError := by
  constructor
  · refine ⟨_, rfl, ?_, ?_⟩
    · intro p c hpc
      exact lookup_append_left (lookup_of_mem_nodup hpc hnodup)
    · intro f hf hq
      refine List.mem_append_right _ (List.mem_filter.mpr ⟨hf, ?_⟩)
      rw [List.all_eq_true]
      intro n hn
      simpa using hq n hn
  · simp [datasetWrite, hne]

/-- Witness for C4: rewriting `write_dataset/a=0/part0.parquet` over a
pre-existing copy. -/
theorem conflict_policy_witness :
    (preExistingFS.files.any (fun f => pathHasBase "write_dataset" f.1) = true) ∧
    ((replacementFiles.map Prod.fst).Nodup) ∧
    ((∃ fs', datasetWrite preExistingFS "write_dataset" .overwriteOrIgnore replacementFiles
        = .ok fs' ∧
        (∀ p c, (p, c) ∈ replacementFiles → fs'.files.lookup p = some c) ∧
        (∀ f, f ∈ preExistingFS.files →
          (∀ q, q ∈ replacementFiles → q.1 ≠ f.1) → f ∈ fs'.files)) ∧
    datasetWrite preExistingFS "write_dataset" .error replacementFiles
      = .error .ioError) :=
  ⟨by decide, by decide,
    conflict_policy preExistingFS "write_dataset" replacementFiles (by decide) (by decide)⟩

/-- C7: every operation of the model returns a success value or a single
structured error; an error status from any step of `PrepareEnv` or
`RunMain` propagates unmodified to `main`, which exits with code 1 — in
particular a `PrepareEnv` error, a factory-step error under a successful
`PrepareEnv`, and a scanner-step error under a successful factory each
surface unchanged as `RunMain`'s error; every `RunMain` error exits with
code 1 and a successful `RunMain` exits with code 0. -/
theorem error_propagation (fs : FileSystem) (completionOrder : List Nat) (e : FSError)
    (h : PrepareEnv fs = .error e) :
    RunMain fs completionOrder = .error e ∧ mainExit fs completionOrder = 1 ∧
    (∀ g os e', RunMain g os = .error e' → mainExit g os = 1) ∧
    (∀ g os t, RunMain g os = .ok t → mainExit g os = 0) ∧
    (∀ g os, (∃ t, RunMain g os = .ok t) ∨ ∃ e', RunMain g os = .error e') ∧
    (∀ g os fs1 e1, PrepareEnv g = .ok fs1 →
      factoryFinish (inspectFile fs1) (listFiles fs1 "parquet_dataset") = .error e1 →
      RunMain g os = .error e1 ∧ mainExit g os = 1) ∧
    (∀ g os fs1 ds e2, PrepareEnv g = .ok fs1 →
      factoryFinish (inspectFile fs1) (listFiles fs1 "parquet_dataset") = .ok ds →
      scannerToTable fs1 ds os = .error e2 →
      RunMain g os = .error e2 ∧ mainExit g os = 1) := by
  have hexit1 : ∀ g os e', RunMain g os = .error e' → mainExit g os = 1 := by
    intro g os e' hre
    unfold mainExit
    rw [hre]
  have hrm : RunMain fs completionOrder = .error e := by
    unfold RunMain
    rw [h]
    rfl
  refine ⟨hrm, hexit1 fs completionOrder e hrm, hexit1, ?_, ?_, ?_, ?_⟩
  · intro g os t ht
    unfold mainExit
    rw [ht]
  · intro g os
    cases hr : RunMain g os with
    | ok t => exact Or.inl ⟨t, rfl⟩
    | error e' => exact Or.inr ⟨e', rfl⟩
  · intro g os fs1 e1 hprep hfact
    have hrm1 : RunMain g os = .error e1 := by
      unfold RunMain
      rw [hprep]
      show (do
          let read_dataset ← factoryFinish (inspectFile fs1) (listFiles fs1 "parquet_dataset")
          let table ← scannerToTable fs1 read_dataset os
          let newFiles := writeDatasetFiles "write_dataset" "part{i}.parquet" "a" table
          datasetWrite fs1 "write_dataset" ExistingDataBehavior.overwriteOrIgnore newFiles)
        = Except.error e1
      rw [hfact]
      rfl
    exact ⟨hrm1, hexit1 g os e1 hrm1⟩
  · intro g os fs1 ds e2 hprep hfact hscan
    have hrm2 : RunMain g os = .error e2 := by
      unfold RunMain
      rw [hprep]
      show (do
          let read_dataset ← factoryFinish (inspectFile fs1) (listFiles fs1 "parquet_dataset")
          let table ← scannerToTable fs1 read_dataset os
          let newFiles := writeDatasetFiles "write_dataset" "part{i}.parquet" "a" table
          datasetWrite fs1 "write_dataset" ExistingDataBehavior.overwriteOrIgnore newFiles)
        = Except.error e2
      rw [hfact]
      show (do
          let table ← scannerToTable fs1 ds os
          let newFiles := writeDatasetFiles "write_dataset" "part{i}.parquet" "a" table
          datasetWrite fs1 "write_dataset" ExistingDataBehavior.overwriteOrIgnore newFiles)
        = Except.error e2
      rw [hscan]
      rfl
    exact ⟨hrm2, hexit1 g os e2 hrm2⟩

/-- Witness for C7: a medium that rejects creating `parquet_dataset`
makes `PrepareEnv` fail with IOError and `main` exit 1; and on `evilFS`,
where `PrepareEnv` succeeds but the factory's schema unification fails,
the SchemaError from `RunMain`'s own factory step reaches `main`
unmodified and exits 1. -/
theorem error_propagation_witness :
    (PrepareEnv deniedFS = .error .ioError) ∧
    (PrepareEnv evilFS = .ok evilPreparedFS) ∧
    (factoryFinish (inspectFile evilPreparedFS)
      (listFiles evilPreparedFS "parquet_dataset") = .error .schemaError) ∧
    (RunMain deniedFS [0, 1] = .error .ioError ∧ mainExit deniedFS [0, 1] = 1) ∧
    (RunMain evilFS [0, 1] = .error .schemaError ∧ mainExit evilFS [0, 1] = 1) :=
  have h := error_propagation deniedFS [0, 1] .ioError rfl
  ⟨rfl, rfl, rfl, ⟨h.1, h.2.1⟩,
    h.2.2.2.2.2.1 evilFS [0, 1] evilPreparedFS .schemaError rfl rfl⟩

end ArrowDataset
